import Mathlib

/-!
Verification of the nissmart ledger engine
(`backend/src/controllers/transaction.controller.ts`).

Amounts and balances are modelled in currency minor units as `Int`
(the store column is `DECIMAL(15,2)`; the zod bound `positive().min(0.01)`
becomes `1 ≤ amount`).  The durable store is a state `St` holding the
`User` table (account id to balance) and the `Transaction` table
(append-only list, newest first, with a unique index on
`idempotencyKey`).  Each Express handler becomes a function from a state
and the parsed request to an `Outcome`: the HTTP-level response, the
durable state after the call, and the list of states committed by
`prisma.$transaction` during the call (each successful transaction call
contributes exactly one commit; a rolled-back transaction contributes
none).  Randomness (`Math.random` in withdraw) is an injected Boolean
`isSuccess`; store-level serialization conflicts for the Serializable
transfer transaction are an injected oracle `conflict : Nat → Bool`
telling whether attempt `i` would abort (the source performs exactly one
attempt and so consults only `conflict 0`).
-/

namespace Nissmart

/-- `TransactionType` enum of the Prisma schema. -/
inductive TxType where
  | DEPOSIT
  | TRANSFER
  | WITHDRAWAL
deriving DecidableEq, Repr

/-- `TransactionStatus` enum of the Prisma schema. -/
inductive TxStatus where
  | PENDING
  | PROCESSING
  | COMPLETED
  | FAILED
deriving DecidableEq, Repr

/-- A row of the `Transaction` table (fields relevant to the engine). -/
structure Txn where
  id : Nat
  type : TxType
  status : TxStatus
  amount : Int
  idempotencyKey : String
  senderId : Option String := none
  receiverId : Option String := none
  description : String := ""
  failureReason : Option String := none
deriving DecidableEq, Repr

/-- The durable store: the `User` table (id to balance, in minor units)
and the `Transaction` table (newest record first).  `nextId` models the
id generator for new transaction rows. -/
structure St where
  users : String → Option Int
  log : List Txn
  nextId : Nat

/-- Errors thrown inside a `prisma.$transaction` body: the two
application-level `throw new Error(...)` codes of the controller, plus
the two store-level failures (unique-constraint violation on
`idempotencyKey`, Prisma P2002, and a serialization abort under the
Serializable isolation level, Prisma P2034). -/
inductive EngineError where
  | userNotFound
  | insufficientFunds
  | duplicateKey
  | serializationConflict
deriving DecidableEq, Repr

/-- The HTTP-level responses the controller can produce.
`created t` is 201 with the record body; `replayed t` is 200 with the
existing record; `failedResult t` is the withdraw controller's 400 with
the FAILED record body; `internalError` is the generic 500 of the catch
blocks. -/
inductive Resp where
  | created (t : Txn)
  | replayed (t : Txn)
  | failedResult (t : Txn)
  | validationError
  | invalidTransfer
  | userNotFound
  | insufficientFunds
  | internalError
deriving DecidableEq, Repr

/-- Result of one handler call: the response, the durable state after
the call, and the durable states committed during the call, in order. -/
structure Outcome where
  resp : Resp
  db : St
  commits : List St

/-- `prisma.transaction.findUnique({ where: { idempotencyKey } })`. -/
def findByKey (log : List Txn) (k : String) : Option Txn :=
  log.find? (fun t => t.idempotencyKey == k)

/-- zod `z.number().positive().min(0.01)` in minor units. -/
def validAmount (amount : Int) : Bool := 1 ≤ amount

/-- zod `z.string().min(1)` for the idempotency key. -/
def validKey (k : String) : Bool := 1 ≤ k.length

/-- JavaScript `description || dflt`: the empty string is falsy. -/
def orDefault (d : Option String) (dflt : String) : String :=
  match d with
  | some str => if str = "" then dflt else str
  | none => dflt

/-- `tx.user.update({ where: { id }, data: { balance: { increment: delta } } })`
(`decrement` is modelled as a negative `delta`). -/
def adjust (s : St) (uid : String) (delta : Int) : St :=
  { s with users := fun j => if j = uid then (s.users j).map (· + delta) else s.users j }

/-- `tx.transaction.create(...)`: fails with the unique-constraint error
on `idempotencyKey` if a record with that key already exists, otherwise
inserts the new record at the head of the log and returns it. -/
def createTxn (s : St) (ty : TxType) (stat : TxStatus) (amount : Int) (key : String)
    (sender receiver : Option String) (descr : String) : Except EngineError (Txn × St) :=
  if (findByKey s.log key).isSome then
    .error .duplicateKey
  else
    let t : Txn :=
      { id := s.nextId, type := ty, status := stat, amount := amount,
        idempotencyKey := key, senderId := sender, receiverId := receiver,
        description := descr }
    .ok (t, { s with log := t :: s.log, nextId := s.nextId + 1 })

/-- The field patch of `tx.transaction.update({ where: { id: tid }, data })`
applied to one row: sets `status`, and sets `failureReason` when the update
data carries one (`none` leaves the stored value unchanged). -/
def patchTxn (tid : Nat) (stat : TxStatus) (reason : Option String) (t : Txn) : Txn :=
  if t.id = tid then
    { t with status := stat,
             failureReason := match reason with | some r => some r | none => t.failureReason }
  else t

/-- Effect of `tx.transaction.update` on the stored log. -/
def updateTxnState (s : St) (tid : Nat) (stat : TxStatus) (reason : Option String) : St :=
  { s with log := s.log.map (patchTxn tid stat reason) }

/-- The body of the deposit `prisma.$transaction`: verify the user
exists, create the COMPLETED DEPOSIT record, increment the balance. -/
def depositTxBody (userId : String) (amount : Int) (key : String) (d : Option String)
    (s : St) : Except EngineError (Txn × St) :=
  match s.users userId with
  | none => .error .userNotFound
  | some _ =>
    match createTxn s .DEPOSIT .COMPLETED amount key none (some userId)
        (orDefault d "Deposit") with
    | .error e => .error e
    | .ok (t, s1) => .ok (t, adjust s1 userId amount)

/-- The deposit catch block: `USER_NOT_FOUND` maps to 404; every other
thrown error falls through to the generic 500. -/
def mapDepositError : EngineError → Resp
  | .userNotFound => .userNotFound
  | _ => .internalError

/-- The remainder of the deposit handler after its idempotency pre-check
returned "not found": run the transaction body; on success commit and
answer 201, on a thrown error roll back and apply the catch block. -/
def depositAfterMiss (s : St) (userId : String) (amount : Int) (key : String)
    (d : Option String) : Outcome :=
  match depositTxBody userId amount key d s with
  | .ok (t, s1) => ⟨.created t, s1, [s1]⟩
  | .error e => ⟨mapDepositError e, s, []⟩

/-- The `deposit` handler. -/
def deposit (s : St) (userId : String) (amount : Int) (key : String)
    (d : Option String) : Outcome :=
  if !(validAmount amount && validKey key) then ⟨.validationError, s, []⟩
  else
    match findByKey s.log key with
    | some t => ⟨.replayed t, s, []⟩
    | none => depositAfterMiss s userId amount key d

/-- Lexicographic string comparison, on the underlying character lists
(the order JavaScript `Array.prototype.sort` applies to the id pair). -/
def strLt (a b : String) : Bool := decide (a.data < b.data)

/-- `[senderId, receiverId].sort()` of the transfer handler: the
lexicographically smaller id is locked first. -/
def firstOf (x y : String) : String := if strLt x y then x else y

/-- The id locked second by the transfer handler. -/
def secondOf (x y : String) : String := if strLt x y then y else x

/-- The body of the transfer `prisma.$transaction`: fetch both users in
sorted-id order, resolve which row is the sender, check the balance,
create the COMPLETED TRANSFER record, decrement the sender and increment
the receiver. -/
def transferTxBody (senderId receiverId : String) (amount : Int) (key : String)
    (d : Option String) (s : St) : Except EngineError (Txn × St) :=
  let firstId := firstOf senderId receiverId
  let secondId := secondOf senderId receiverId
  match s.users firstId, s.users secondId with
  | some firstBal, some secondBal =>
    let senderBal := if firstId = senderId then firstBal else secondBal
    if senderBal < amount then .error .insufficientFunds
    else
      match createTxn s .TRANSFER .COMPLETED amount key (some senderId) (some receiverId)
          (orDefault d "Internal Transfer") with
      | .error e => .error e
      | .ok (t, s1) => .ok (t, adjust (adjust s1 senderId (-amount)) receiverId amount)
  | _, _ => .error .userNotFound

/-- The transfer catch block: `USER_NOT_FOUND` maps to 404,
`INSUFFICIENT_FUNDS` to 400; every other thrown error (including the
store-level duplicate-key and serialization failures) falls through to
the generic 500. -/
def mapTransferError : EngineError → Resp
  | .userNotFound => .userNotFound
  | .insufficientFunds => .insufficientFunds
  | _ => .internalError

/-- A `prisma.$transaction(..., { isolationLevel: Serializable })` call:
the store may abort the attempt with a serialization conflict, as
decided by the environment. -/
def prismaTransactionSer (conflict : Bool) (s : St)
    (body : St → Except EngineError (Txn × St)) : Except EngineError (Txn × St) :=
  if conflict then .error .serializationConflict else body s

/-- The remainder of the transfer handler after its idempotency
pre-check returned "not found": one Serializable transaction attempt
(`conflict0` tells whether the store aborts it), then the result or
catch-block mapping. -/
def transferAfterMiss (conflict0 : Bool) (s : St) (senderId receiverId : String)
    (amount : Int) (key : String) (d : Option String) : Outcome :=
  match prismaTransactionSer conflict0 s (transferTxBody senderId receiverId amount key d) with
  | .ok (t, s1) => ⟨.created t, s1, [s1]⟩
  | .error e => ⟨mapTransferError e, s, []⟩

/-- The `transfer` handler.  `conflict i` is the store's decision to
abort attempt `i`; the source makes exactly one attempt and consults
only `conflict 0` — there is no retry loop. -/
def transfer (s : St) (senderId receiverId : String) (amount : Int) (key : String)
    (d : Option String) (conflict : Nat → Bool) : Outcome :=
  if !(validAmount amount && validKey key) then ⟨.validationError, s, []⟩
  else if senderId = receiverId then ⟨.invalidTransfer, s, []⟩
  else
    match findByKey s.log key with
    | some t => ⟨.replayed t, s, []⟩
    | none => transferAfterMiss (conflict 0) s senderId receiverId amount key d

/-- The withdraw catch block: same mapping as the transfer one. -/
def mapWithdrawError : EngineError → Resp
  | .userNotFound => .userNotFound
  | .insufficientFunds => .insufficientFunds
  | _ => .internalError

/-- The body of the withdraw `prisma.$transaction`: verify the user and
the balance, create the PROCESSING WITHDRAWAL record, consume the
settlement outcome (`Math.random() > 0.1` in the source, injected here
as `isSuccess`), and within the same transaction update the record to
COMPLETED (deducting the balance) or to FAILED with a reason (no balance
change). -/
def withdrawTxBody (isSuccess : Bool) (userId : String) (amount : Int) (key : String)
    (d : Option String) (s : St) : Except EngineError (Txn × St) :=
  match s.users userId with
  | none => .error .userNotFound
  | some bal =>
    if bal < amount then .error .insufficientFunds
    else
      match createTxn s .WITHDRAWAL .PROCESSING amount key (some userId) none
          (orDefault d "Withdrawal") with
      | .error e => .error e
      | .ok (t, s1) =>
        if isSuccess then
          .ok (patchTxn t.id .COMPLETED none t,
               adjust (updateTxnState s1 t.id .COMPLETED none) userId (-amount))
        else
          .ok (patchTxn t.id .FAILED (some "External system rejected the withdrawal") t,
               updateTxnState s1 t.id .FAILED (some "External system rejected the withdrawal"))

/-- The `withdraw` handler: a COMPLETED result answers 201, any other
final status answers 400 with the record body. -/
def withdraw (s : St) (userId : String) (amount : Int) (key : String)
    (d : Option String) (isSuccess : Bool) : Outcome :=
  if !(validAmount amount && validKey key) then ⟨.validationError, s, []⟩
  else
    match findByKey s.log key with
    | some t => ⟨.replayed t, s, []⟩
    | none =>
      match withdrawTxBody isSuccess userId amount key d s with
      | .ok (t, s1) =>
        ⟨if t.status = .COMPLETED then .created t else .failedResult t, s1, [s1]⟩
      | .error e => ⟨mapWithdrawError e, s, []⟩

/-- Projection of the error side of an `Except`. -/
def exceptError {α : Type} : Except EngineError α → Option EngineError
  | .error e => some e
  | .ok _ => none

/-- One engine request, with its environment (settlement outcome,
conflict oracle) baked in. -/
inductive Op where
  | dep (userId : String) (amount : Int) (key : String) (d : Option String)
  | tra (senderId receiverId : String) (amount : Int) (key : String) (d : Option String)
      (conflict : Nat → Bool)
  | wit (userId : String) (amount : Int) (key : String) (d : Option String) (isSuccess : Bool)

/-- The durable state after one request. -/
def applyOp (s : St) : Op → St
  | .dep u a k d => (deposit s u a k d).db
  | .tra x y a k d c => (transfer s x y a k d c).db
  | .wit u a k d ok => (withdraw s u a k d ok).db

/-- The durable state after a sequence of requests. -/
def runOps (s : St) : List Op → St
  | [] => s
  | op :: rest => runOps (applyOp s op) rest

/-- Every stored balance is non-negative. -/
def nonNeg (s : St) : Prop := ∀ uid b, s.users uid = some b → 0 ≤ b

/-- A two-account demo store: `u1` holds 10.00, `u2` holds 0.00. -/
def demoSt : St :=
  { users := fun j => if j = "u1" then some 1000 else if j = "u2" then some 0 else none,
    log := [],
    nextId := 0 }

/-- The record a successful deposit inserts (proved below in
`deposit_created_eq`; a named form for readable statements). -/
def depTx (s : St) (u : String) (a : Int) (k : String) (d : Option String) : Txn :=
  { id := s.nextId, type := .DEPOSIT, status := .COMPLETED, amount := a,
    idempotencyKey := k, senderId := none, receiverId := some u,
    description := orDefault d "Deposit" }

/-- The state a successful deposit commits. -/
def depDb (s : St) (u : String) (a : Int) (k : String) (d : Option String) : St :=
  adjust { s with log := depTx s u a k d :: s.log, nextId := s.nextId + 1 } u a

/-- The record a successful transfer inserts. -/
def traTx (s : St) (x y : String) (a : Int) (k : String) (d : Option String) : Txn :=
  { id := s.nextId, type := .TRANSFER, status := .COMPLETED, amount := a,
    idempotencyKey := k, senderId := some x, receiverId := some y,
    description := orDefault d "Internal Transfer" }

/-- The state a successful transfer commits. -/
def traDb (s : St) (x y : String) (a : Int) (k : String) (d : Option String) : St :=
  adjust (adjust { s with log := traTx s x y a k d :: s.log, nextId := s.nextId + 1 } x (-a))
    y a

/-- The PROCESSING record a withdrawal inserts before settlement. -/
def witTx (s : St) (u : String) (a : Int) (k : String) (d : Option String) : Txn :=
  { id := s.nextId, type := .WITHDRAWAL, status := .PROCESSING, amount := a,
    idempotencyKey := k, senderId := some u, receiverId := none,
    description := orDefault d "Withdrawal" }

/-- The final record of a withdrawal whose settlement succeeded. -/
def witTxDone (s : St) (u : String) (a : Int) (k : String) (d : Option String) : Txn :=
  { witTx s u a k d with status := .COMPLETED }

/-- The final record of a withdrawal whose settlement failed. -/
def witTxFailed (s : St) (u : String) (a : Int) (k : String) (d : Option String) : Txn :=
  { witTx s u a k d with
    status := .FAILED
    failureReason := some "External system rejected the withdrawal" }

/-- The state committed by a withdrawal whose settlement succeeded. -/
def witDbDone (s : St) (u : String) (a : Int) (k : String) (d : Option String) : St :=
  adjust
    (updateTxnState { s with log := witTx s u a k d :: s.log, nextId := s.nextId + 1 }
      s.nextId .COMPLETED none)
    u (-a)

/-- The state committed by a withdrawal whose settlement failed. -/
def witDbFailed (s : St) (u : String) (a : Int) (k : String) (d : Option String) : St :=
  updateTxnState { s with log := witTx s u a k d :: s.log, nextId := s.nextId + 1 }
    s.nextId .FAILED (some "External system rejected the withdrawal")

example : (deposit demoSt "u1" 100 "k1" none).resp =
    .created { id := 0, type := .DEPOSIT, status := .COMPLETED, amount := 100,
               idempotencyKey := "k1", senderId := none, receiverId := some "u1",
               description := "Deposit", failureReason := none } := by
  decide

example : (transfer demoSt "u1" "u2" 300 "k2" none (fun _ => false)).db.users "u2" =
    some 300 := by
  rfl

/-! ### Basic lemmas -/

lemma one_le_of_valid {a : Int} {k : String}
    (h : (validAmount a && validKey k) = true) : 1 ≤ a := by
  have h1 : validAmount a = true := ((Bool.and_eq_true _ _).mp h).1
  simpa [validAmount] using h1

lemma findByKey_cons_self {t : Txn} {l : List Txn} {k : String}
    (h : t.idempotencyKey = k) : findByKey (t :: l) k = some t := by
  simp [findByKey, List.find?_cons, h]

lemma findByKey_none_key {l : List Txn} {k : String}
    (h : findByKey l k = none) : ∀ t ∈ l, t.idempotencyKey ≠ k := by
  intro t ht
  have := List.find?_eq_none.mp h t ht
  simpa using this

lemma patchTxn_key (tid : Nat) (stat : TxStatus) (r : Option String) (t : Txn) :
    (patchTxn tid stat r t).idempotencyKey = t.idempotencyKey := by
  unfold patchTxn
  split <;> rfl

lemma adjust_users_self (s : St) (uid : String) (delta : Int) :
    (adjust s uid delta).users uid = (s.users uid).map (· + delta) := by
  simp [adjust]

lemma adjust_users_ne (s : St) (uid j : String) (delta : Int) (h : j ≠ uid) :
    (adjust s uid delta).users j = s.users j := by
  simp [adjust, h]

lemma adjust_log (s : St) (uid : String) (delta : Int) :
    (adjust s uid delta).log = s.log := rfl

/-! ### Deposit path lemmas -/

lemma deposit_not_valid {s : St} {u : String} {a : Int} {k : String} {d : Option String}
    (h : (validAmount a && validKey k) = false) :
    deposit s u a k d = ⟨.validationError, s, []⟩ := by
  simp [deposit, h]

lemma deposit_replay_eq {s : St} {u : String} {a : Int} {k : String} {d : Option String}
    {t : Txn} (hv : (validAmount a && validKey k) = true)
    (hf : findByKey s.log k = some t) :
    deposit s u a k d = ⟨.replayed t, s, []⟩ := by
  simp [deposit, hv, hf]

lemma deposit_user_missing_eq {s : St} {u : String} {a : Int} {k : String}
    {d : Option String} (hv : (validAmount a && validKey k) = true)
    (hf : findByKey s.log k = none) (hu : s.users u = none) :
    deposit s u a k d = ⟨.userNotFound, s, []⟩ := by
  simp [deposit, depositAfterMiss, depositTxBody, mapDepositError, hv, hf, hu]

lemma deposit_created_eq {s : St} {u : String} {a : Int} {k : String}
    {d : Option String} {b : Int} (hv : (validAmount a && validKey k) = true)
    (hu : s.users u = some b) (hf : findByKey s.log k = none) :
    deposit s u a k d =
      ⟨.created (depTx s u a k d), depDb s u a k d, [depDb s u a k d]⟩ := by
  simp [deposit, depositAfterMiss, depositTxBody, createTxn, depTx, depDb, hv, hu, hf]

/-! ### Transfer path lemmas -/

lemma firstOf_t {x y : String} (h : strLt x y = true) : firstOf x y = x := by
  simp [firstOf, h]

lemma firstOf_f {x y : String} (h : strLt x y = false) : firstOf x y = y := by
  simp [firstOf, h]

lemma secondOf_t {x y : String} (h : strLt x y = true) : secondOf x y = y := by
  simp [secondOf, h]

lemma secondOf_f {x y : String} (h : strLt x y = false) : secondOf x y = x := by
  simp [secondOf, h]

lemma transferTxBody_insufficient {s : St} {x y : String} {a : Int} {k : String}
    {d : Option String} {bx b2 : Int} (hx : s.users x = some bx)
    (hy : s.users y = some b2) (hlt : bx < a) :
    transferTxBody x y a k d s = .error .insufficientFunds := by
  unfold transferTxBody firstOf secondOf
  cases hlt2 : strLt x y
  · by_cases hxy : y = x
    · subst hxy
      rw [hx] at hy
      injection hy with hy
      subst hy
      simp [hx, hlt]
    · simp [hx, hy, hxy, hlt]
  · simp [hx, hy, hlt]

lemma transferTxBody_dup {s : St} {x y : String} {a : Int} {k : String}
    {d : Option String} {bx b2 : Int} {t0 : Txn} (hx : s.users x = some bx)
    (hy : s.users y = some b2) (hge : ¬ bx < a) (hf : findByKey s.log k = some t0) :
    transferTxBody x y a k d s = .error .duplicateKey := by
  unfold transferTxBody firstOf secondOf
  cases hlt2 : strLt x y
  · by_cases hxy : y = x
    · subst hxy
      rw [hx] at hy
      injection hy with hy
      subst hy
      simp [hx, hge, createTxn, hf]
    · simp [hx, hy, hxy, hge, createTxn, hf]
  · simp [hx, hy, hge, createTxn, hf]

lemma transferTxBody_ok_eq {s : St} {x y : String} {a : Int} {k : String}
    {d : Option String} {bx b2 : Int} (hx : s.users x = some bx)
    (hy : s.users y = some b2) (hge : ¬ bx < a) (hf : findByKey s.log k = none) :
    transferTxBody x y a k d s = .ok (traTx s x y a k d, traDb s x y a k d) := by
  unfold transferTxBody firstOf secondOf
  cases hlt2 : strLt x y
  · by_cases hxy : y = x
    · subst hxy
      rw [hx] at hy
      injection hy with hy
      subst hy
      simp [hx, hge, createTxn, hf, traTx, traDb]
    · simp [hx, hy, hxy, hge, createTxn, hf, traTx, traDb]
  · simp [hx, hy, hge, createTxn, hf, traTx, traDb]

lemma createTxn_dup {s : St} {ty : TxType} {stat : TxStatus} {amount : Int}
    {key : String} {sender receiver : Option String} {descr : String} {t0 : Txn}
    (hf : findByKey s.log key = some t0) :
    createTxn s ty stat amount key sender receiver descr = .error .duplicateKey := by
  simp [createTxn, hf]

lemma transfer_createTxn_none {s : St} {x y : String} {a : Int} {k : String}
    {d : Option String} (hf : findByKey s.log k = none) :
    createTxn s .TRANSFER .COMPLETED a k (some x) (some y) (orDefault d "Internal Transfer") =
      .ok (traTx s x y a k d,
           { s with log := traTx s x y a k d :: s.log, nextId := s.nextId + 1 }) := by
  simp [createTxn, hf, traTx]

lemma transferTxBody_ok_inv {s s1 : St} {x y : String} {a : Int} {k : String}
    {d : Option String} {t : Txn}
    (hb : transferTxBody x y a k d s = .ok (t, s1)) :
    ∃ bx, s.users x = some bx ∧ ¬ bx < a ∧ findByKey s.log k = none ∧
      t = traTx s x y a k d ∧ s1 = traDb s x y a k d := by
  unfold transferTxBody at hb
  cases hlt2 : strLt x y
  · simp only [firstOf_f hlt2, secondOf_f hlt2] at hb
    rcases hyv : s.users y with _ | fb <;> simp only [hyv] at hb
    · exact absurd hb (by simp)
    · rcases hxv : s.users x with _ | sb <;> simp only [hxv] at hb
      · exact absurd hb (by simp)
      · by_cases hxy : y = x
        · rw [hxy] at hyv
          rw [hyv] at hxv
          injection hxv with hxv
          subst hxv
          simp only [if_pos hxy] at hb
          by_cases hga : fb < a
          · rw [if_pos hga] at hb
            exact absurd hb (by simp)
          · rw [if_neg hga] at hb
            rcases hfk : findByKey s.log k with _ | t0
            · rw [transfer_createTxn_none hfk] at hb
              simp only [Except.ok.injEq, Prod.mk.injEq] at hb
              exact ⟨fb, rfl, hga, rfl, hb.1.symm, hb.2.symm⟩
            · rw [createTxn_dup hfk] at hb
              exact absurd hb (by simp)
        · simp only [if_neg hxy] at hb
          by_cases hga : sb < a
          · rw [if_pos hga] at hb
            exact absurd hb (by simp)
          · rw [if_neg hga] at hb
            rcases hfk : findByKey s.log k with _ | t0
            · rw [transfer_createTxn_none hfk] at hb
              simp only [Except.ok.injEq, Prod.mk.injEq] at hb
              exact ⟨sb, rfl, hga, rfl, hb.1.symm, hb.2.symm⟩
            · rw [createTxn_dup hfk] at hb
              exact absurd hb (by simp)
  · simp only [firstOf_t hlt2, secondOf_t hlt2] at hb
    rcases hxv : s.users x with _ | fb <;> simp only [hxv] at hb
    · exact absurd hb (by simp)
    · rcases hyv : s.users y with _ | sb <;> simp only [hyv] at hb
      · exact absurd hb (by simp)
      · simp only [if_true] at hb
        by_cases hga : fb < a
        · rw [if_pos hga] at hb
          exact absurd hb (by simp)
        · rw [if_neg hga] at hb
          rcases hfk : findByKey s.log k with _ | t0
          · rw [transfer_createTxn_none hfk] at hb
            simp only [Except.ok.injEq, Prod.mk.injEq] at hb
            exact ⟨fb, rfl, hga, rfl, hb.1.symm, hb.2.symm⟩
          · rw [createTxn_dup hfk] at hb
            exact absurd hb (by simp)

lemma transfer_not_valid {s : St} {x y : String} {a : Int} {k : String}
    {d : Option String} {c : Nat → Bool} (h : (validAmount a && validKey k) = false) :
    transfer s x y a k d c = ⟨.validationError, s, []⟩ := by
  simp [transfer, h]

lemma transfer_self_eq {s : St} {x : String} {a : Int} {k : String}
    {d : Option String} {c : Nat → Bool} (hv : (validAmount a && validKey k) = true) :
    transfer s x x a k d c = ⟨.invalidTransfer, s, []⟩ := by
  simp [transfer, hv]

lemma transfer_replay_eq {s : St} {x y : String} {a : Int} {k : String}
    {d : Option String} {c : Nat → Bool} {t : Txn}
    (hv : (validAmount a && validKey k) = true) (hxy : x ≠ y)
    (hf : findByKey s.log k = some t) :
    transfer s x y a k d c = ⟨.replayed t, s, []⟩ := by
  simp [transfer, hv, hxy, hf]

lemma transfer_conflict_eq {s : St} {x y : String} {a : Int} {k : String}
    {d : Option String} {c : Nat → Bool}
    (hv : (validAmount a && validKey k) = true) (hxy : x ≠ y)
    (hf : findByKey s.log k = none) (hc : c 0 = true) :
    transfer s x y a k d c = ⟨.internalError, s, []⟩ := by
  simp [transfer, transferAfterMiss, prismaTransactionSer, mapTransferError, hv, hxy, hf, hc]

lemma transfer_error_eq {s : St} {x y : String} {a : Int} {k : String}
    {d : Option String} {c : Nat → Bool} {e : EngineError}
    (hv : (validAmount a && validKey k) = true) (hxy : x ≠ y)
    (hf : findByKey s.log k = none) (hc : c 0 = false)
    (hb : transferTxBody x y a k d s = .error e) :
    transfer s x y a k d c = ⟨mapTransferError e, s, []⟩ := by
  simp [transfer, transferAfterMiss, prismaTransactionSer, hv, hxy, hf, hc, hb]

lemma transfer_ok_eq {s s1 : St} {x y : String} {a : Int} {k : String}
    {d : Option String} {c : Nat → Bool} {t : Txn}
    (hv : (validAmount a && validKey k) = true) (hxy : x ≠ y)
    (hf : findByKey s.log k = none) (hc : c 0 = false)
    (hb : transferTxBody x y a k d s = .ok (t, s1)) :
    transfer s x y a k d c = ⟨.created t, s1, [s1]⟩ := by
  simp [transfer, transferAfterMiss, prismaTransactionSer, hv, hxy, hf, hc, hb]

lemma transfer_created_eq {s : St} {x y : String} {a : Int} {k : String}
    {d : Option String} {c : Nat → Bool} {bx b2 : Int}
    (hv : (validAmount a && validKey k) = true) (hxy : x ≠ y)
    (hf : findByKey s.log k = none) (hc : c 0 = false)
    (hx : s.users x = some bx) (hy : s.users y = some b2) (hge : ¬ bx < a) :
    transfer s x y a k d c =
      ⟨.created (traTx s x y a k d), traDb s x y a k d, [traDb s x y a k d]⟩ :=
  transfer_ok_eq hv hxy hf hc (transferTxBody_ok_eq hx hy hge hf)

/-! ### More deposit lemmas -/

lemma dep_createTxn_none {s : St} {u : String} {a : Int} {k : String}
    {d : Option String} (hf : findByKey s.log k = none) :
    createTxn s .DEPOSIT .COMPLETED a k none (some u) (orDefault d "Deposit") =
      .ok (depTx s u a k d,
           { s with log := depTx s u a k d :: s.log, nextId := s.nextId + 1 }) := by
  simp [createTxn, hf, depTx]

lemma deposit_error_eq {s : St} {u : String} {a : Int} {k : String}
    {d : Option String} {e : EngineError}
    (hv : (validAmount a && validKey k) = true) (hf : findByKey s.log k = none)
    (hb : depositTxBody u a k d s = .error e) :
    deposit s u a k d = ⟨mapDepositError e, s, []⟩ := by
  simp [deposit, depositAfterMiss, hv, hf, hb]

lemma depositTxBody_ok_inv {s s1 : St} {u : String} {a : Int} {k : String}
    {d : Option String} {t : Txn}
    (hb : depositTxBody u a k d s = .ok (t, s1)) :
    ∃ b, s.users u = some b ∧ findByKey s.log k = none ∧
      t = depTx s u a k d ∧ s1 = depDb s u a k d := by
  unfold depositTxBody at hb
  rcases hu : s.users u with _ | b <;> simp only [hu] at hb
  · exact absurd hb (by simp)
  · rcases hfk : findByKey s.log k with _ | t0
    · rw [dep_createTxn_none hfk] at hb
      simp only [Except.ok.injEq, Prod.mk.injEq] at hb
      exact ⟨b, rfl, rfl, hb.1.symm, hb.2.symm⟩
    · rw [createTxn_dup hfk] at hb
      exact absurd hb (by simp)

/-! ### Withdraw path lemmas -/

lemma wit_createTxn_none {s : St} {u : String} {a : Int} {k : String}
    {d : Option String} (hf : findByKey s.log k = none) :
    createTxn s .WITHDRAWAL .PROCESSING a k (some u) none (orDefault d "Withdrawal") =
      .ok (witTx s u a k d,
           { s with log := witTx s u a k d :: s.log, nextId := s.nextId + 1 }) := by
  simp [createTxn, hf, witTx]

lemma withdrawTxBody_success {s : St} {u : String} {a : Int} {k : String}
    {d : Option String} {b : Int} (hu : s.users u = some b) (hge : ¬ b < a)
    (hf : findByKey s.log k = none) :
    withdrawTxBody true u a k d s = .ok (witTxDone s u a k d, witDbDone s u a k d) := by
  simp [withdrawTxBody, hu, hge, wit_createTxn_none hf, patchTxn, witTx, witTxDone,
    witDbDone, updateTxnState]

lemma withdrawTxBody_failure {s : St} {u : String} {a : Int} {k : String}
    {d : Option String} {b : Int} (hu : s.users u = some b) (hge : ¬ b < a)
    (hf : findByKey s.log k = none) :
    withdrawTxBody false u a k d s = .ok (witTxFailed s u a k d, witDbFailed s u a k d) := by
  simp [withdrawTxBody, hu, hge, wit_createTxn_none hf, patchTxn, witTx, witTxFailed,
    witDbFailed, updateTxnState]

lemma withdrawTxBody_ok_inv {s s1 : St} {w : Bool} {u : String} {a : Int} {k : String}
    {d : Option String} {t : Txn}
    (hb : withdrawTxBody w u a k d s = .ok (t, s1)) :
    ∃ b, s.users u = some b ∧ ¬ b < a ∧ findByKey s.log k = none ∧
      ((w = true ∧ t = witTxDone s u a k d ∧ s1 = witDbDone s u a k d) ∨
       (w = false ∧ t = witTxFailed s u a k d ∧ s1 = witDbFailed s u a k d)) := by
  unfold withdrawTxBody at hb
  rcases hu : s.users u with _ | b <;> simp only [hu] at hb
  · exact absurd hb (by simp)
  · by_cases hga : b < a
    · rw [if_pos hga] at hb
      exact absurd hb (by simp)
    · rw [if_neg hga] at hb
      rcases hfk : findByKey s.log k with _ | t0
      · rw [wit_createTxn_none hfk] at hb
        cases w
        · simp only [Bool.false_eq_true, if_false, if_neg, Except.ok.injEq,
            Prod.mk.injEq] at hb
          refine ⟨b, rfl, hga, rfl, .inr ⟨rfl, ?_, ?_⟩⟩
          · rw [← hb.1]
            simp [patchTxn, witTx, witTxFailed]
          · rw [← hb.2]
            simp [updateTxnState, witDbFailed, witTx]
        · simp only [if_true, Except.ok.injEq, Prod.mk.injEq] at hb
          refine ⟨b, rfl, hga, rfl, .inl ⟨rfl, ?_, ?_⟩⟩
          · rw [← hb.1]
            simp [patchTxn, witTx, witTxDone]
          · rw [← hb.2]
            simp [updateTxnState, witDbDone, witTx]
      · rw [createTxn_dup hfk] at hb
        exact absurd hb (by simp)

lemma withdraw_not_valid {s : St} {u : String} {a : Int} {k : String}
    {d : Option String} {w : Bool} (h : (validAmount a && validKey k) = false) :
    withdraw s u a k d w = ⟨.validationError, s, []⟩ := by
  simp [withdraw, h]

lemma withdraw_replay_eq {s : St} {u : String} {a : Int} {k : String}
    {d : Option String} {w : Bool} {t : Txn}
    (hv : (validAmount a && validKey k) = true) (hf : findByKey s.log k = some t) :
    withdraw s u a k d w = ⟨.replayed t, s, []⟩ := by
  simp [withdraw, hv, hf]

lemma withdraw_error_eq {s : St} {u : String} {a : Int} {k : String}
    {d : Option String} {w : Bool} {e : EngineError}
    (hv : (validAmount a && validKey k) = true) (hf : findByKey s.log k = none)
    (hb : withdrawTxBody w u a k d s = .error e) :
    withdraw s u a k d w = ⟨mapWithdrawError e, s, []⟩ := by
  simp [withdraw, hv, hf, hb]

lemma withdraw_success_eq {s : St} {u : String} {a : Int} {k : String}
    {d : Option String} {b : Int}
    (hv : (validAmount a && validKey k) = true) (hf : findByKey s.log k = none)
    (hu : s.users u = some b) (hge : ¬ b < a) :
    withdraw s u a k d true =
      ⟨.created (witTxDone s u a k d), witDbDone s u a k d, [witDbDone s u a k d]⟩ := by
  rw [withdraw]
  simp only [hv, Bool.not_true, Bool.false_eq_true, if_false, hf,
    withdrawTxBody_success hu hge hf]
  simp [witTxDone, witTx]

lemma withdraw_failure_eq {s : St} {u : String} {a : Int} {k : String}
    {d : Option String} {b : Int}
    (hv : (validAmount a && validKey k) = true) (hf : findByKey s.log k = none)
    (hu : s.users u = some b) (hge : ¬ b < a) :
    withdraw s u a k d false =
      ⟨.failedResult (witTxFailed s u a k d), witDbFailed s u a k d,
        [witDbFailed s u a k d]⟩ := by
  rw [withdraw]
  simp only [hv, Bool.not_true, Bool.false_eq_true, if_false, hf,
    withdrawTxBody_failure hu hge hf]
  simp [witTxFailed, witTx]

lemma withdraw_ok_eq {s s1 : St} {u : String} {a : Int} {k : String}
    {d : Option String} {w : Bool} {t : Txn}
    (hv : (validAmount a && validKey k) = true) (hf : findByKey s.log k = none)
    (hb : withdrawTxBody w u a k d s = .ok (t, s1)) :
    withdraw s u a k d w =
      ⟨if t.status = .COMPLETED then .created t else .failedResult t, s1, [s1]⟩ := by
  simp [withdraw, hv, hf, hb]

/-! ### Non-negativity preservation -/

lemma deposit_nonNeg {s : St} {u : String} {a : Int} {k : String} {d : Option String}
    (h : nonNeg s) : nonNeg (deposit s u a k d).db := by
  cases hv : (validAmount a && validKey k)
  · rw [deposit_not_valid hv]
    exact h
  · cases hf : findByKey s.log k with
    | some t0 =>
      rw [deposit_replay_eq hv hf]
      exact h
    | none =>
      rcases hb : depositTxBody u a k d s with e | ⟨t, s1⟩
      · rw [deposit_error_eq hv hf hb]
        exact h
      · have hds : deposit s u a k d = ⟨.created t, s1, [s1]⟩ := by
          simp [deposit, depositAfterMiss, hv, hf, hb]
        rw [hds]
        obtain ⟨b, hu, -, -, hs1⟩ := depositTxBody_ok_inv hb
        subst hs1
        intro uid b2 h2
        simp only [depDb, adjust] at h2
        by_cases hj : uid = u
        · subst hj
          rw [if_pos rfl, hu] at h2
          have h3 : b + a = b2 := by simpa using h2
          have ha : 1 ≤ a := one_le_of_valid hv
          have hb0 : 0 ≤ b := h uid b hu
          omega
        · rw [if_neg hj] at h2
          exact h uid b2 h2

lemma transfer_nonNeg {s : St} {x y : String} {a : Int} {k : String}
    {d : Option String} {c : Nat → Bool} (h : nonNeg s) :
    nonNeg (transfer s x y a k d c).db := by
  cases hv : (validAmount a && validKey k)
  · rw [transfer_not_valid hv]
    exact h
  · by_cases hxy : x = y
    · subst hxy
      rw [transfer_self_eq hv]
      exact h
    · cases hf : findByKey s.log k with
      | some t0 =>
        rw [transfer_replay_eq hv hxy hf]
        exact h
      | none =>
        cases hc : c 0 with
        | true =>
          rw [transfer_conflict_eq hv hxy hf hc]
          exact h
        | false =>
          rcases hb : transferTxBody x y a k d s with e | ⟨t, s1⟩
          · rw [transfer_error_eq hv hxy hf hc hb]
            exact h
          · rw [transfer_ok_eq hv hxy hf hc hb]
            obtain ⟨bx, hx, hge, -, -, hs1⟩ := transferTxBody_ok_inv hb
            subst hs1
            intro uid b2 h2
            simp only [traDb, adjust] at h2
            have ha : 1 ≤ a := one_le_of_valid hv
            by_cases hjy : uid = y
            · subst hjy
              rw [if_pos rfl] at h2
              have hux : ¬ uid = x := fun hc2 => hxy hc2.symm
              rw [if_neg hux] at h2
              rcases hsu : s.users uid with _ | bu
              · rw [hsu] at h2
                simp at h2
              · rw [hsu] at h2
                have h3 : bu + a = b2 := by simpa using h2
                have hb0 : 0 ≤ bu := h uid bu hsu
                omega
            · rw [if_neg hjy] at h2
              by_cases hjx : uid = x
              · subst hjx
                rw [if_pos rfl, hx] at h2
                have h3 : bx + -a = b2 := by simpa using h2
                omega
              · rw [if_neg hjx] at h2
                exact h uid b2 h2

lemma withdraw_nonNeg {s : St} {u : String} {a : Int} {k : String}
    {d : Option String} {w : Bool} (h : nonNeg s) :
    nonNeg (withdraw s u a k d w).db := by
  cases hv : (validAmount a && validKey k)
  · rw [withdraw_not_valid hv]
    exact h
  · cases hf : findByKey s.log k with
    | some t0 =>
      rw [withdraw_replay_eq hv hf]
      exact h
    | none =>
      rcases hb : withdrawTxBody w u a k d s with e | ⟨t, s1⟩
      · rw [withdraw_error_eq hv hf hb]
        exact h
      · rw [withdraw_ok_eq hv hf hb]
        obtain ⟨b, hu, hge, -, hcase⟩ := withdrawTxBody_ok_inv hb
        rcases hcase with ⟨-, -, hs1⟩ | ⟨-, -, hs1⟩
        · subst hs1
          intro uid b2 h2
          simp only [witDbDone, adjust, updateTxnState] at h2
          by_cases hj : uid = u
          · subst hj
            rw [if_pos rfl, hu] at h2
            have h3 : b + -a = b2 := by simpa using h2
            omega
          · rw [if_neg hj] at h2
            exact h uid b2 h2
        · subst hs1
          intro uid b2 h2
          simp only [witDbFailed, updateTxnState] at h2
          exact h uid b2 h2

lemma applyOp_nonNeg {s : St} (h : nonNeg s) (op : Op) : nonNeg (applyOp s op) := by
  cases op with
  | dep u a k d => exact deposit_nonNeg h
  | tra x y a k d c => exact transfer_nonNeg h
  | wit u a k d w => exact withdraw_nonNeg h

lemma runOps_nonNeg : ∀ (ops : List Op) (s : St), nonNeg s → nonNeg (runOps s ops)
  | [], _, h => h
  | op :: rest, s, h => runOps_nonNeg rest (applyOp s op) (applyOp_nonNeg h op)

/-! ### Insufficient funds leave the state unchanged -/

lemma transfer_insufficient_db {s : St} {x y : String} {a : Int} {k : String}
    {d : Option String} {c : Nat → Bool} {bx : Int}
    (hx : s.users x = some bx) (hlt : bx < a) :
    (transfer s x y a k d c).db = s := by
  cases hv : (validAmount a && validKey k)
  · rw [transfer_not_valid hv]
  · by_cases hxy : x = y
    · subst hxy
      rw [transfer_self_eq hv]
    · cases hf : findByKey s.log k with
      | some t0 => rw [transfer_replay_eq hv hxy hf]
      | none =>
        cases hc : c 0 with
        | true => rw [transfer_conflict_eq hv hxy hf hc]
        | false =>
          rcases hb : transferTxBody x y a k d s with e | ⟨t, s1⟩
          · rw [transfer_error_eq hv hxy hf hc hb]
          · obtain ⟨bx2, hx2, hge, -, -, -⟩ := transferTxBody_ok_inv hb
            rw [hx] at hx2
            injection hx2 with hx2
            omega

lemma withdraw_insufficient_db {s : St} {u : String} {a : Int} {k : String}
    {d : Option String} {w : Bool} {b : Int}
    (hu : s.users u = some b) (hlt : b < a) :
    (withdraw s u a k d w).db = s := by
  cases hv : (validAmount a && validKey k)
  · rw [withdraw_not_valid hv]
  · cases hf : findByKey s.log k with
    | some t0 => rw [withdraw_replay_eq hv hf]
    | none =>
      rcases hb : withdrawTxBody w u a k d s with e | ⟨t, s1⟩
      · rw [withdraw_error_eq hv hf hb]
      · obtain ⟨b2, hu2, hge, -, -⟩ := withdrawTxBody_ok_inv hb
        rw [hu] at hu2
        injection hu2 with hu2
        omega

/-! ### Log shapes of withdrawal commits -/

lemma witDbDone_log {s : St} {u : String} {a : Int} {k : String} {d : Option String} :
    (witDbDone s u a k d).log =
      witTxDone s u a k d :: s.log.map (patchTxn s.nextId .COMPLETED none) := by
  simp [witDbDone, updateTxnState, adjust, patchTxn, witTx, witTxDone]

lemma witDbFailed_log {s : St} {u : String} {a : Int} {k : String} {d : Option String} :
    (witDbFailed s u a k d).log =
      witTxFailed s u a k d ::
        s.log.map (patchTxn s.nextId .FAILED (some "External system rejected the withdrawal")) := by
  simp [witDbFailed, updateTxnState, patchTxn, witTx, witTxFailed]

lemma traDb_users_x {s : St} {x y : String} {a : Int} {k : String} {d : Option String}
    (hxy : x ≠ y) :
    (traDb s x y a k d).users x = (s.users x).map (· + -a) := by
  rw [traDb, adjust_users_ne _ _ _ _ hxy, adjust_users_self]

lemma traDb_users_y {s : St} {x y : String} {a : Int} {k : String} {d : Option String}
    (hxy : x ≠ y) :
    (traDb s x y a k d).users y = (s.users y).map (· + a) := by
  rw [traDb, adjust_users_self, adjust_users_ne _ _ _ _ (fun hc => hxy hc.symm)]

lemma demoSt_nonNeg : nonNeg demoSt := by
  intro uid b h
  by_cases h1 : uid = "u1"
  · simp [demoSt, h1] at h
    omega
  · by_cases h2 : uid = "u2"
    · simp [demoSt, h1, h2] at h
      omega
    · simp [demoSt, h1, h2] at h

/-! ### Claim theorems -/

/-- C1: For every account and every sequence of deposit, transfer and
withdrawal operations applied to the store (each transfer and withdrawal
guarded by its balance check), the balances are never negative at any
observable point; in particular a transfer or withdrawal whose amount
exceeds the current balance leaves the state (and so every balance)
unchanged. -/
theorem c1_no_negative_balance :
    (∀ (ops : List Op) (s : St), nonNeg s → nonNeg (runOps s ops)) ∧
    (∀ (s : St) (x y : String) (a : Int) (k : String) (d : Option String)
        (c : Nat → Bool) (bx : Int),
        s.users x = some bx → bx < a → (transfer s x y a k d c).db = s) ∧
    (∀ (s : St) (u : String) (a : Int) (k : String) (d : Option String)
        (w : Bool) (b : Int),
        s.users u = some b → b < a → (withdraw s u a k d w).db = s) := by
  refine ⟨fun ops s h => runOps_nonNeg ops s h, ?_, ?_⟩
  · intro s x y a k d c bx hx hlt
    exact transfer_insufficient_db hx hlt
  · intro s u a k d w b hu hlt
    exact withdraw_insufficient_db hu hlt

/-- Witness for C1 at a concrete store and request sequence. -/
theorem c1_no_negative_balance_witness :
    nonNeg (runOps demoSt
      [Op.dep "u1" 500 "ka" none,
       Op.tra "u1" "u2" 300 "kb" none (fun _ => false),
       Op.wit "u2" 100 "kc" none true]) ∧
    (transfer demoSt "u1" "u2" 99999 "kd" none (fun _ => false)).db = demoSt ∧
    (withdraw demoSt "u1" 99999 "ke" none true).db = demoSt :=
  ⟨c1_no_negative_balance.1 _ demoSt demoSt_nonNeg,
   c1_no_negative_balance.2.1 demoSt "u1" "u2" 99999 "kd" none (fun _ => false) 1000
     (by rfl) (by decide),
   c1_no_negative_balance.2.2 demoSt "u1" 99999 "ke" none true 1000
     (by rfl) (by decide)⟩

/-- C2: calling deposit, transfer or withdraw a second time with the same
idempotencyKey and the same arguments, right after a first call that
produced a record, returns the very same record (hence the same id) and
leaves the store untouched: no balance mutation, no new log entry. -/
theorem c2_idempotent_replay :
    (∀ (s : St) (u : String) (a : Int) (k : String) (d : Option String) (t : Txn),
        (deposit s u a k d).resp = .created t →
        deposit (deposit s u a k d).db u a k d =
          ⟨.replayed t, (deposit s u a k d).db, []⟩) ∧
    (∀ (s : St) (x y : String) (a : Int) (k : String) (d : Option String)
        (c c2 : Nat → Bool) (t : Txn),
        (transfer s x y a k d c).resp = .created t →
        transfer (transfer s x y a k d c).db x y a k d c2 =
          ⟨.replayed t, (transfer s x y a k d c).db, []⟩) ∧
    (∀ (s : St) (u : String) (a : Int) (k : String) (d : Option String)
        (w w2 : Bool) (t : Txn),
        ((withdraw s u a k d w).resp = .created t ∨
          (withdraw s u a k d w).resp = .failedResult t) →
        withdraw (withdraw s u a k d w).db u a k d w2 =
          ⟨.replayed t, (withdraw s u a k d w).db, []⟩) := by
  refine ⟨?_, ?_, ?_⟩
  · intro s u a k d t h
    cases hv : (validAmount a && validKey k) with
    | false =>
      rw [deposit_not_valid hv] at h
      exact absurd h (by simp)
    | true =>
      cases hf : findByKey s.log k with
      | some t0 =>
        rw [deposit_replay_eq hv hf] at h
        exact absurd h (by simp)
      | none =>
        rcases hb : depositTxBody u a k d s with e | ⟨t2, s1⟩
        · rw [deposit_error_eq hv hf hb] at h
          cases e <;> exact absurd h (by simp [mapDepositError])
        · have hds : deposit s u a k d = ⟨.created t2, s1, [s1]⟩ := by
            simp [deposit, depositAfterMiss, hv, hf, hb]
          rw [hds] at h ⊢
          have h2 : t2 = t := by simpa using h
          subst h2
          obtain ⟨b, hu, hfk, htx, hs1⟩ := depositTxBody_ok_inv hb
          subst htx hs1
          exact deposit_replay_eq hv (findByKey_cons_self rfl)
  · intro s x y a k d c c2 t h
    cases hv : (validAmount a && validKey k) with
    | false =>
      rw [transfer_not_valid hv] at h
      exact absurd h (by simp)
    | true =>
      by_cases hxy : x = y
      · subst hxy
        rw [transfer_self_eq hv] at h
        exact absurd h (by simp)
      · cases hf : findByKey s.log k with
        | some t0 =>
          rw [transfer_replay_eq hv hxy hf] at h
          exact absurd h (by simp)
        | none =>
          cases hc : c 0 with
          | true =>
            rw [transfer_conflict_eq hv hxy hf hc] at h
            exact absurd h (by simp)
          | false =>
            rcases hb : transferTxBody x y a k d s with e | ⟨t2, s1⟩
            · rw [transfer_error_eq hv hxy hf hc hb] at h
              cases e <;> exact absurd h (by simp [mapTransferError])
            · rw [transfer_ok_eq hv hxy hf hc hb] at h ⊢
              have h2 : t2 = t := by simpa using h
              subst h2
              obtain ⟨bx, hx, hge, hfk, htx, hs1⟩ := transferTxBody_ok_inv hb
              subst htx hs1
              exact transfer_replay_eq hv hxy (findByKey_cons_self rfl)
  · intro s u a k d w w2 t h
    cases hv : (validAmount a && validKey k) with
    | false =>
      rw [withdraw_not_valid hv] at h
      rcases h with h | h <;> exact absurd h (by simp)
    | true =>
      cases hf : findByKey s.log k with
      | some t0 =>
        rw [withdraw_replay_eq hv hf] at h
        rcases h with h | h <;> exact absurd h (by simp)
      | none =>
        rcases hb : withdrawTxBody w u a k d s with e | ⟨t2, s1⟩
        · rw [withdraw_error_eq hv hf hb] at h
          cases e <;>
            rcases h with h | h <;>
            exact absurd h (by simp [mapWithdrawError])
        · rw [withdraw_ok_eq hv hf hb] at h ⊢
          have h2 : t2 = t := by
            by_cases hst : t2.status = .COMPLETED
            · rw [if_pos hst] at h
              rcases h with h | h
              · simpa using h
              · exact absurd h (by simp)
            · rw [if_neg hst] at h
              rcases h with h | h
              · exact absurd h (by simp)
              · simpa using h
          subst h2
          obtain ⟨b, hu, hge, hfk, hcase⟩ := withdrawTxBody_ok_inv hb
          rcases hcase with ⟨-, htx, hs1⟩ | ⟨-, htx, hs1⟩ <;> subst htx hs1
          · exact withdraw_replay_eq hv (by rw [witDbDone_log]; exact findByKey_cons_self rfl)
          · exact withdraw_replay_eq hv (by rw [witDbFailed_log]; exact findByKey_cons_self rfl)

/-- Witness for C2: a concrete deposit replayed with its own key. -/
theorem c2_idempotent_replay_witness :
    deposit (deposit demoSt "u1" 100 "kw" none).db "u1" 100 "kw" none =
      ⟨.replayed (depTx demoSt "u1" 100 "kw" none),
        (deposit demoSt "u1" 100 "kw" none).db, []⟩ :=
  c2_idempotent_replay.1 demoSt "u1" 100 "kw" none (depTx demoSt "u1" 100 "kw" none) (by rfl)

/-- C3: a transfer that answers with a COMPLETED record moves exactly
`amount` from the sender to the receiver, so the sum of the two balances
is conserved. -/
theorem c3_transfer_conservation :
    ∀ (s : St) (x y : String) (a : Int) (k : String) (d : Option String)
      (c : Nat → Bool) (t : Txn) (bx b2 : Int),
      s.users x = some bx → s.users y = some b2 →
      (transfer s x y a k d c).resp = .created t →
      (transfer s x y a k d c).db.users x = some (bx - a) ∧
      (transfer s x y a k d c).db.users y = some (b2 + a) ∧
      bx - a + (b2 + a) = bx + b2 := by
  intro s x y a k d c t bx b2 hx hy h
  cases hv : (validAmount a && validKey k) with
  | false =>
    rw [transfer_not_valid hv] at h
    exact absurd h (by simp)
  | true =>
    by_cases hxy : x = y
    · subst hxy
      rw [transfer_self_eq hv] at h
      exact absurd h (by simp)
    · cases hf : findByKey s.log k with
      | some t0 =>
        rw [transfer_replay_eq hv hxy hf] at h
        exact absurd h (by simp)
      | none =>
        cases hc : c 0 with
        | true =>
          rw [transfer_conflict_eq hv hxy hf hc] at h
          exact absurd h (by simp)
        | false =>
          rcases hb : transferTxBody x y a k d s with e | ⟨t2, s1⟩
          · rw [transfer_error_eq hv hxy hf hc hb] at h
            cases e <;> exact absurd h (by simp [mapTransferError])
          · rw [transfer_ok_eq hv hxy hf hc hb]
            obtain ⟨bx2, hx2, hge, hfk, htx, hs1⟩ := transferTxBody_ok_inv hb
            subst hs1
            refine ⟨?_, ?_, by ring⟩
            · show (traDb s x y a k d).users x = some (bx - a)
              rw [traDb_users_x hxy, hx]
              simp [← sub_eq_add_neg]
            · show (traDb s x y a k d).users y = some (b2 + a)
              rw [traDb_users_y hxy, hy]
              simp

/-- Witness for C3 at the demo store. -/
theorem c3_transfer_conservation_witness :
    (transfer demoSt "u1" "u2" 300 "kc3" none (fun _ => false)).db.users "u1" =
      some (1000 - 300) ∧
    (transfer demoSt "u1" "u2" 300 "kc3" none (fun _ => false)).db.users "u2" =
      some (0 + 300) ∧
    (1000 : Int) - 300 + (0 + 300) = 1000 + 0 :=
  c3_transfer_conservation demoSt "u1" "u2" 300 "kc3" none (fun _ => false)
    (traTx demoSt "u1" "u2" 300 "kc3" none) 1000 0 (by rfl) (by rfl) (by rfl)

/-- C4 counterexample: two identical deposit requests whose idempotency
pre-checks both read the initial store and miss.  The first body commits
its record; the second body's log append then fails with the
duplicate-key error, and the controller surfaces the failure to the
caller as the generic 500 internal error instead of re-fetching and
returning the winner's record. -/
theorem c4_duplicate_key_counterexample :
    findByKey demoSt.log "k" = none ∧
    (depositAfterMiss demoSt "u1" 100 "k" none).resp =
      .created (depTx demoSt "u1" 100 "k" none) ∧
    exceptError
        (depositTxBody "u1" 100 "k" none (depositAfterMiss demoSt "u1" 100 "k" none).db) =
      some .duplicateKey ∧
    (depositAfterMiss (depositAfterMiss demoSt "u1" 100 "k" none).db
        "u1" 100 "k" none).resp = .internalError := by
  decide

/-- C4 amended: when the log append hits the unique idempotencyKey
constraint after the pre-check missed (the race with a concurrent
identical request), the deposit and transfer controllers do not re-fetch
the existing record: the duplicate-key failure falls through the catch
block to the generic 500 internal error and the unit of work rolls
back. -/
theorem c4_duplicate_key_surfaced :
    (∀ (s : St) (u : String) (a : Int) (k : String) (d : Option String)
        (b : Int) (t0 : Txn),
        s.users u = some b → findByKey s.log k = some t0 →
        depositAfterMiss s u a k d = ⟨.internalError, s, []⟩) ∧
    (∀ (s : St) (x y : String) (a : Int) (k : String) (d : Option String)
        (bx b2 : Int) (t0 : Txn),
        s.users x = some bx → s.users y = some b2 → ¬ bx < a →
        findByKey s.log k = some t0 →
        transferAfterMiss false s x y a k d = ⟨.internalError, s, []⟩) := by
  constructor
  · intro s u a k d b t0 hu hf
    have hb : depositTxBody u a k d s = .error .duplicateKey := by
      simp [depositTxBody, hu, createTxn_dup hf]
    simp [depositAfterMiss, hb, mapDepositError]
  · intro s x y a k d bx b2 t0 hx hy hge hf
    have hb : transferTxBody x y a k d s = .error .duplicateKey :=
      transferTxBody_dup hx hy hge hf
    simp [transferAfterMiss, prismaTransactionSer, hb, mapTransferError]

/-- Witness for the amended C4 at a concrete raced store. -/
theorem c4_duplicate_key_surfaced_witness :
    depositAfterMiss (depositAfterMiss demoSt "u1" 200 "kc4" none).db "u1" 200 "kc4" none =
      ⟨.internalError, (depositAfterMiss demoSt "u1" 200 "kc4" none).db, []⟩ :=
  c4_duplicate_key_surfaced.1 (depositAfterMiss demoSt "u1" 200 "kc4" none).db
    "u1" 200 "kc4" none (1000 + 200) (depTx demoSt "u1" 200 "kc4" none)
    (by rfl) (by rfl)

/-- C5 amended: the PROCESSING insert, the settlement call and the final
status update all happen inside the single atomic unit of work of the
withdraw handler: at most one state is ever committed, and no committed
state contains a record with the request's key in status PROCESSING — so
no PROCESSING record is durable before (or after) settlement, and the
final status is not applied in a separate unit of work. -/
theorem c5_withdraw_single_unit :
    ∀ (s : St) (u : String) (a : Int) (k : String) (d : Option String) (w : Bool),
      (withdraw s u a k d w).commits.length ≤ 1 ∧
      (withdraw s u a k d w).commits.all
        (fun s1 => s1.log.all
          (fun t => t.idempotencyKey != k || t.status != .PROCESSING)) = true := by
  intro s u a k d w
  cases hv : (validAmount a && validKey k) with
  | false =>
    rw [withdraw_not_valid hv]
    exact ⟨by simp, by simp⟩
  | true =>
    cases hf : findByKey s.log k with
    | some t0 =>
      rw [withdraw_replay_eq hv hf]
      exact ⟨by simp, by simp⟩
    | none =>
      rcases hb : withdrawTxBody w u a k d s with e | ⟨t2, s1⟩
      · rw [withdraw_error_eq hv hf hb]
        exact ⟨by simp, by simp⟩
      · rw [withdraw_ok_eq hv hf hb]
        obtain ⟨b, hu, hge, hfk, hcase⟩ := withdrawTxBody_ok_inv hb
        refine ⟨by simp, ?_⟩
        simp only [List.all_cons, List.all_nil, Bool.and_true]
        rw [List.all_eq_true]
        intro t ht
        rcases hcase with ⟨-, -, hs1⟩ | ⟨-, -, hs1⟩ <;> subst hs1
        · rw [witDbDone_log] at ht
          rcases List.mem_cons.mp ht with h | h
          · subst h
            simp [witTxDone, witTx]
          · obtain ⟨t0, ht0, rfl⟩ := List.mem_map.mp h
            have hne := findByKey_none_key hfk t0 ht0
            simp [patchTxn_key, hne]
        · rw [witDbFailed_log] at ht
          rcases List.mem_cons.mp ht with h | h
          · subst h
            simp [witTxFailed, witTx]
          · obtain ⟨t0, ht0, rfl⟩ := List.mem_map.mp h
            have hne := findByKey_none_key hfk t0 ht0
            simp [patchTxn_key, hne]

/-- C5 counterexample: a concrete withdrawal (in both settlement
outcomes) performs exactly one commit, and no committed state contains
any PROCESSING record at all: the PROCESSING record is not committed
durably before the external settlement step, and the final status plus
balance change land in the same, single unit of work. -/
theorem c5_withdraw_counterexample :
    (withdraw demoSt "u1" 100 "kc5" none false).commits.length = 1 ∧
    (withdraw demoSt "u1" 100 "kc5" none false).commits.all
        (fun s1 => s1.log.all (fun t => t.status != .PROCESSING)) = true ∧
    (withdraw demoSt "u1" 100 "kc5" none false).resp =
      .failedResult (witTxFailed demoSt "u1" 100 "kc5" none) ∧
    (withdraw demoSt "u1" 100 "kc5" none true).commits.length = 1 ∧
    (withdraw demoSt "u1" 100 "kc5" none true).commits.all
        (fun s1 => s1.log.all (fun t => t.status != .PROCESSING)) = true := by
  decide

/-- C6: a withdrawal whose settlement step fails ends FAILED with the
non-empty failure reason, leaves every balance unchanged, and is
returned as a 400 business result carrying the record, not as the 500
internal error. -/
theorem c6_withdraw_settlement_failure :
    ∀ (s : St) (u : String) (a : Int) (k : String) (d : Option String) (b : Int),
      (validAmount a && validKey k) = true →
      findByKey s.log k = none →
      s.users u = some b → ¬ b < a →
      (withdraw s u a k d false).resp = .failedResult (witTxFailed s u a k d) ∧
      (witTxFailed s u a k d).status = .FAILED ∧
      (witTxFailed s u a k d).failureReason =
        some "External system rejected the withdrawal" ∧
      "External system rejected the withdrawal" ≠ "" ∧
      (withdraw s u a k d false).db.users = s.users ∧
      (withdraw s u a k d false).resp ≠ .internalError := by
  intro s u a k d b hv hf hu hge
  rw [withdraw_failure_eq hv hf hu hge]
  exact ⟨rfl, rfl, rfl, by decide, rfl, by simp⟩

/-- Witness for C6 at the demo store. -/
theorem c6_withdraw_settlement_failure_witness :
    (withdraw demoSt "u1" 100 "kc6" none false).resp =
      .failedResult (witTxFailed demoSt "u1" 100 "kc6" none) ∧
    (witTxFailed demoSt "u1" 100 "kc6" none).status = .FAILED ∧
    (witTxFailed demoSt "u1" 100 "kc6" none).failureReason =
      some "External system rejected the withdrawal" ∧
    "External system rejected the withdrawal" ≠ "" ∧
    (withdraw demoSt "u1" 100 "kc6" none false).db.users = demoSt.users ∧
    (withdraw demoSt "u1" 100 "kc6" none false).resp ≠ .internalError :=
  c6_withdraw_settlement_failure demoSt "u1" 100 "kc6" none 1000
    (by decide) (by rfl) (by rfl) (by decide)

/-- C7: a transfer whose sender balance is strictly below the amount
fails with InsufficientFunds and leaves the store exactly as it was: no
record of any status is inserted and no balance moves. -/
theorem c7_transfer_insufficient_funds :
    ∀ (s : St) (x y : String) (a : Int) (k : String) (d : Option String)
      (c : Nat → Bool) (bx b2 : Int),
      (validAmount a && validKey k) = true → x ≠ y →
      findByKey s.log k = none → c 0 = false →
      s.users x = some bx → s.users y = some b2 → bx < a →
      transfer s x y a k d c = ⟨.insufficientFunds, s, []⟩ := by
  intro s x y a k d c bx b2 hv hxy hf hc hx hy hlt
  exact transfer_error_eq hv hxy hf hc (transferTxBody_insufficient hx hy hlt)

/-- Witness for C7 at the demo store. -/
theorem c7_transfer_insufficient_funds_witness :
    transfer demoSt "u1" "u2" 100000 "kc7" none (fun _ => false) =
      ⟨.insufficientFunds, demoSt, []⟩ :=
  c7_transfer_insufficient_funds demoSt "u1" "u2" 100000 "kc7" none (fun _ => false)
    1000 0 (by decide) (by decide) (by rfl) (by rfl) (by rfl) (by rfl) (by decide)

/-- C8: a transfer whose senderId equals receiverId is rejected with
InvalidTransfer before anything is written: the store is returned
exactly as it was, with no log entry and no balance change. -/
theorem c8_transfer_self_rejected :
    ∀ (s : St) (x : String) (a : Int) (k : String) (d : Option String)
      (c : Nat → Bool),
      (validAmount a && validKey k) = true →
      transfer s x x a k d c = ⟨.invalidTransfer, s, []⟩ := by
  intro s x a k d c hv
  exact transfer_self_eq hv

/-- Witness for C8. -/
theorem c8_transfer_self_rejected_witness :
    transfer demoSt "u1" "u1" 500 "kc8" none (fun _ => false) =
      ⟨.invalidTransfer, demoSt, []⟩ :=
  c8_transfer_self_rejected demoSt "u1" 500 "kc8" none (fun _ => false) (by decide)

/-- C9 counterexample: with a store that reports a serialization
conflict on the first attempt but none afterwards, the transfer returns
the 500 internal error immediately and writes nothing — no retry is
attempted, although a second attempt would have succeeded (the same call
under a conflict-free store creates the record). -/
theorem c9_no_retry_counterexample :
    (transfer demoSt "u1" "u2" 100 "kc9" none (fun i => i == 0)).resp = .internalError ∧
    (transfer demoSt "u1" "u2" 100 "kc9" none (fun i => i == 0)).db.log = [] ∧
    (transfer demoSt "u1" "u2" 100 "kc9" none (fun _ => false)).resp =
      .created (traTx demoSt "u1" "u2" 100 "kc9" none) := by
  decide

/-- C9 amended: the transfer handler makes exactly one Serializable
attempt; when the store reports a serialization conflict on it, there is
no internal retry (whatever later attempts would return) and the
conflict is surfaced to the caller as the generic 500 internal error,
with the state unchanged. -/
theorem c9_conflict_surfaced :
    ∀ (s : St) (x y : String) (a : Int) (k : String) (d : Option String)
      (c : Nat → Bool),
      (validAmount a && validKey k) = true → x ≠ y →
      findByKey s.log k = none → c 0 = true →
      transfer s x y a k d c = ⟨.internalError, s, []⟩ := by
  intro s x y a k d c hv hxy hf hc
  exact transfer_conflict_eq hv hxy hf hc

/-- Witness for the amended C9. -/
theorem c9_conflict_surfaced_witness :
    transfer demoSt "u1" "u2" 100 "kc9w" none (fun i => i == 0) =
      ⟨.internalError, demoSt, []⟩ :=
  c9_conflict_surfaced demoSt "u1" "u2" 100 "kc9w" none (fun i => i == 0)
    (by decide) (by decide) (by rfl) (by rfl)

/-- C10 counterexample: a transfer whose senderId equals receiverId is
rejected with InvalidTransfer even though its idempotencyKey matches an
existing record — the self-transfer check runs before the idempotency
check, so replay is not decided by the key alone. -/
theorem c10_key_only_counterexample :
    findByKey (deposit demoSt "u1" 100 "kc10" none).db.log "kc10" =
      some (depTx demoSt "u1" 100 "kc10" none) ∧
    (transfer (deposit demoSt "u1" 100 "kc10" none).db "u1" "u1" 500 "kc10" none
        (fun _ => false)).resp = .invalidTransfer := by
  decide

/-- C10 amended: replay is decided by the idempotency key alone for every
valid request — deposit and withdraw return the existing record with no
state change whatever the other arguments are, and transfer does too
except when senderId equals receiverId: the self-transfer check precedes
the idempotency check and rejects with InvalidTransfer even when the key
matches. -/
theorem c10_replay_by_key_alone :
    ∀ (s : St) (k : String) (t : Txn), findByKey s.log k = some t →
      (∀ (u : String) (a : Int) (d : Option String),
          (validAmount a && validKey k) = true →
          deposit s u a k d = ⟨.replayed t, s, []⟩) ∧
      (∀ (u : String) (a : Int) (d : Option String) (w : Bool),
          (validAmount a && validKey k) = true →
          withdraw s u a k d w = ⟨.replayed t, s, []⟩) ∧
      (∀ (x y : String) (a : Int) (d : Option String) (c : Nat → Bool),
          (validAmount a && validKey k) = true → x ≠ y →
          transfer s x y a k d c = ⟨.replayed t, s, []⟩) := by
  intro s k t hf
  exact ⟨fun u a d hv => deposit_replay_eq hv hf,
         fun u a d w hv => withdraw_replay_eq hv hf,
         fun x y a d c hv hxy => transfer_replay_eq hv hxy hf⟩

/-- Witness for the amended C10: a replayed deposit with a different
account id, amount and description still returns the original record. -/
theorem c10_replay_by_key_alone_witness :
    deposit (deposit demoSt "u1" 100 "kc10w" none).db "u9" 55 "kc10w" (some "other") =
      ⟨.replayed (depTx demoSt "u1" 100 "kc10w" none),
        (deposit demoSt "u1" 100 "kc10w" none).db, []⟩ :=
  ((c10_replay_by_key_alone (deposit demoSt "u1" 100 "kc10w" none).db "kc10w"
      (depTx demoSt "u1" 100 "kc10w" none) (by rfl)).1) "u9" 55 (some "other") (by decide)

end Nissmart
